/-
  Verification of the core logic of the Custom-Browser repository.

  The repository duplicates one browsing core across several front-end
  variants.  This development shallowly embeds, directly from the Python
  sources, the domain firewall matcher, the navigation history state
  machine, the HTML text/link extractor handlers, the visit/settings
  persistence layer (with incognito mode), and the console session
  controller's fetch pipeline, and proves the specification's claims
  about them.
-/
import Mathlib

namespace Browser

/-! ## Python string primitives

Executable models of the Python `str` operations used by the sources:
`startswith`, `endswith`, `lower`, `strip`, membership (`in`), and the
truthiness test on strings. -/

/-- ASCII lower-casing of one character, as `str.lower` acts on ASCII. -/
def lowerChar (c : Char) : Char :=
  if 'A' ≤ c ∧ c ≤ 'Z' then Char.ofNat (c.toNat + 32) else c

/-- Model of Python `str.lower` (ASCII range; tags and schemes in the
sources are ASCII). -/
def pyLower (s : String) : String := ⟨s.data.map lowerChar⟩

/-- Model of Python `s.startswith(pre)`. -/
def pyStartsWith (s pre : String) : Bool :=
  s.data.take pre.data.length == pre.data

/-- Model of Python `s.endswith(suf)`. -/
def pyEndsWith (s suf : String) : Bool :=
  s.data.length ≥ suf.data.length &&
    s.data.drop (s.data.length - suf.data.length) == suf.data

/-- Model of Python `c in s` for a single character. -/
def pyHasChar (s : String) (c : Char) : Bool := s.data.contains c

/-- The characters removed by Python `str.strip()` with no argument
(ASCII whitespace). -/
def isPySpace (c : Char) : Bool :=
  c == ' ' || c == '\t' || c == '\n' || c == '\x0b' || c == '\x0c' || c == '\r'

/-- Model of Python `str.strip()` on the character list. -/
def pyStripList (cs : List Char) : List Char :=
  ((cs.dropWhile isPySpace).reverse.dropWhile isPySpace).reverse

/-- Model of Python `str.strip()`. -/
def pyStrip (s : String) : String := ⟨pyStripList s.data⟩

/-- Python string truthiness combined with `or`:
`a or b` where `a : Optional[str]` — used by
`parser.title or urlparse(url).netloc` in `browser_cli.fetch_url`. -/
def pyOrStr (a : Option String) (b : String) : String :=
  match a with
  | none => b
  | some s => if s = "" then b else s

/-! ## Model of `urllib.parse.urlparse` netloc extraction

`urlsplit` removes a leading `scheme:` when the prefix before the first
`:` is a letter followed by scheme characters; the netloc is then the
text between a leading `//` and the first `/`, `?` or `#`, and parsing
raises `ValueError` when the netloc has unbalanced square brackets
(invalid IPv6 authority).  `none` models that exception. -/

/-- Characters allowed in a URL scheme (`scheme_chars` of `urllib.parse`). -/
def schemeChar (c : Char) : Bool :=
  ('a' ≤ c && c ≤ 'z') || ('A' ≤ c && c ≤ 'Z') || ('0' ≤ c && c ≤ '9') ||
    c == '+' || c == '-' || c == '.'

/-- A candidate scheme prefix is valid when it starts with an ASCII
letter and consists of scheme characters. -/
def validScheme (pre : List Char) : Bool :=
  match pre with
  | [] => false
  | c :: _ =>
      (('a' ≤ c && c ≤ 'z') || ('A' ≤ c && c ≤ 'Z')) && pre.all schemeChar

/-- Split off the scheme as `urlsplit` does: returns
`(lower-cased scheme, remainder)`; the scheme is `[]` when absent. -/
def splitSchemeRest (cs : List Char) : List Char × List Char :=
  match cs.findIdx? (· == ':') with
  | some i =>
      if 0 < i then
        let pre := cs.take i
        if validScheme pre then (pre.map lowerChar, cs.drop (i + 1))
        else ([], cs)
      else ([], cs)
  | none => ([], cs)

/-- Netloc delimiters: the authority runs to the first `/`, `?` or `#`. -/
def netlocDelim (c : Char) : Bool := c == '/' || c == '?' || c == '#'

/-- `urlparse(url).netloc`; `none` models the `ValueError` raised on an
authority with unbalanced square brackets. -/
def pyNetlocE (url : String) : Option String :=
  let rest := (splitSchemeRest url.data).2
  if rest.take 2 == ['/', '/'] then
    let netloc := (rest.drop 2).takeWhile (fun c => !netlocDelim c)
    if (netloc.contains '[' && !netloc.contains ']') ||
        (netloc.contains ']' && !netloc.contains '[') then none
    else some ⟨netloc⟩
  else some ""

/-- Total netloc (used where the caller does not guard the parse). -/
def pyNetloc (url : String) : String := (pyNetlocE url).getD ""

/-- Whether a URL string carries a scheme (used to state what "absolute
URL" means in the specification's round-trip property). -/
def urlHasScheme (url : String) : Bool := (splitSchemeRest url.data).1 != []

/-! ## Domain firewall matcher

Embeds `DatabaseManager.is_domain_blocked` (identical in
`src/db_manager.py` lines 87–100, `src/browser_cli.py` lines 145–156,
`src/ultimate_browser.py`, `src/web_browser.py`): extract the netloc,
return `True` on an exact match or a `"." + blocked` suffix match
against the cached blocked list, `False` otherwise, and `False` when
`urlparse` raises. -/
def is_domain_blocked (blocked_domains : List String) (url : String) : Bool :=
  match pyNetlocE url with
  | none => false
  | some domain =>
      blocked_domains.any (fun blocked =>
        domain == blocked || pyEndsWith domain ("." ++ blocked))

/-! ## Navigation history

Embeds the history state shared by the variants: `self.history` (a list
of URL strings) and the cursor (`self.current_index` in
`src/browser_cli.py`, `self.history_position` in
`src/darkweb_browser.py`), initially `[]` and `-1`. -/

structure NavState where
  entries : List String
  cursor : Int
deriving DecidableEq, Repr

/-- The empty history (`self.history = []`, index `-1`). -/
def NavState.init : NavState := ⟨[], -1⟩

/-- Recording a visit, from `src/browser_cli.py` lines 399–403 and
`src/darkweb_browser.py` lines 246–251: truncate forward history when
the cursor is not at the end, append, and point the cursor at the new
last entry. -/
def navVisit (e : String) (s : NavState) : NavState :=
  let entries1 :=
    if s.cursor < (s.entries.length : Int) - 1 then
      s.entries.take (s.cursor + 1).toNat
    else s.entries
  let entries2 := entries1 ++ [e]
  ⟨entries2, (entries2.length : Int) - 1⟩

/-- Outcome of a back/forward request: the entry moved to, or the named
no-op failure the sources print ("No previous page in history" /
"Can't go back any further"). -/
inductive NavResult where
  | moved (url : String)
  | noEntry
deriving DecidableEq, Repr

/-- `go_back`, from `src/darkweb_browser.py` lines 322–330 (the cursor
move is the same in `src/browser_cli.py` lines 505–514; there the
session controller then re-enters the fetch pipeline). -/
def navBack (s : NavState) : NavState × NavResult :=
  if 0 < s.cursor then
    let c := s.cursor - 1
    (⟨s.entries, c⟩, .moved (s.entries.getD c.toNat ""))
  else (s, .noEntry)

/-- `go_forward`, from `src/darkweb_browser.py` lines 332–340
(cursor move identical in `src/browser_cli.py` lines 516–525). -/
def navForward (s : NavState) : NavState × NavResult :=
  if s.cursor < (s.entries.length : Int) - 1 then
    let c := s.cursor + 1
    (⟨s.entries, c⟩, .moved (s.entries.getD c.toNat ""))
  else (s, .noEntry)

/-- One user-level history operation. -/
inductive NavOp where
  | visit (e : String)
  | back
  | forward
deriving DecidableEq, Repr

def navStep (s : NavState) (op : NavOp) : NavState :=
  match op with
  | .visit e => navVisit e s
  | .back => (navBack s).1
  | .forward => (navForward s).1

/-- Run a sequence of history operations from the empty history. -/
def runNav (ops : List NavOp) : NavState :=
  ops.foldl navStep NavState.init

/-- The history invariant of the specification. -/
def navInv (s : NavState) : Prop :=
  -1 ≤ s.cursor ∧ s.cursor < (s.entries.length : Int)

theorem navVisit_inv (e : String) (s : NavState) : navInv (navVisit e s) := by
  simp only [navVisit, navInv]
  simp
  omega

theorem navStep_inv (s : NavState) (op : NavOp) (h : navInv s) :
    navInv (navStep s op) := by
  obtain ⟨h1, h2⟩ := h
  cases op with
  | visit e => exact navVisit_inv e s
  | back =>
      simp only [navStep, navBack]
      split
      · simp only [navInv]
        try simp
        omega
      · exact ⟨h1, h2⟩
  | forward =>
      simp only [navStep, navForward]
      split
      · simp only [navInv]
        try simp
        omega
      · exact ⟨h1, h2⟩

theorem runNav_inv (ops : List NavOp) : navInv (runNav ops) := by
  suffices h : ∀ s, navInv s → navInv (ops.foldl navStep s) by
    exact h NavState.init (by constructor <;> simp [NavState.init])
  induction ops with
  | nil => intro s hs; exact hs
  | cons op rest ih =>
      intro s hs
      exact ih (navStep s op) (navStep_inv s op hs)

/-! ## HTML text/link extractor

Embeds `HTMLTextExtractor` of `src/browser_cli.py` (lines 276–346).
The class subclasses the standard library's `html.parser.HTMLParser`,
which tokenizes the raw HTML and calls `handle_starttag`,
`handle_endtag` and `handle_data`; the tokenizer (an external library,
with `convert_charrefs=True` so character references reach
`handle_data` already unescaped) is modelled as a stream of events, and
the repository's handler methods are translated below and folded over
that stream. -/

/-- One callback from the standard-library HTML tokenizer.  Attribute
values are `none` for value-less attributes, as `HTMLParser` reports
them. -/
inductive HtmlEvent where
  | startTag (tag : String) (attrs : List (String × Option String))
  | endTag (tag : String)
  | data (s : String)
deriving DecidableEq, Repr

/-- The mutable fields of `HTMLTextExtractor`. -/
structure ExtractorSt where
  result : List String
  links : List (Nat × String)
  current_link : Option Nat
  skip_data : Bool
  in_title : Bool
  title : Option String
  in_body : Bool
deriving DecidableEq, Repr

/-- `HTMLTextExtractor.__init__` (lines 279–288). -/
def ExtractorSt.init : ExtractorSt :=
  ⟨[], [], none, false, false, none, false⟩

/-- `self.ignore_tags` (line 288). -/
def ignoreTags : List String := ["script", "style", "meta", "head", "svg", "path"]

/-- The inline link indicator appended to the text stream
(line 316): blue `[id]` with ANSI escapes. -/
def linkMarker (n : Nat) : String := "\x1b[34m[" ++ toString n ++ "]\x1b[0m "

/-- The `for attr in attrs` loop of `handle_starttag` followed by the
`if href:` truthiness test: the first attribute named `href`
(case-insensitively), kept only when its value is a non-empty string. -/
def hrefOf (attrs : List (String × Option String)) : Option String :=
  match attrs.find? (fun a => pyLower a.1 == "href") with
  | some (_, some s) => if s = "" then none else some s
  | _ => none

/-- `HTMLTextExtractor.handle_starttag` (lines 290–316). -/
def handle_starttag (tag : String) (attrs : List (String × Option String))
    (st : ExtractorSt) : ExtractorSt :=
  let t := pyLower tag
  if t ∈ ignoreTags then { st with skip_data := true }
  else
    let st := if t = "body" then { st with in_body := true } else st
    let st := if t = "title" then { st with in_title := true } else st
    if t = "a" then
      match hrefOf attrs with
      | some href =>
          let link_id := st.links.length + 1
          { st with
              links := st.links ++ [(link_id, href)]
              current_link := some link_id
              result := st.result ++ [linkMarker link_id] }
      | none => st
    else st

/-- The block-level tags that force a line break at their close
(line 329). -/
def blockTags : List String :=
  ["p", "div", "h1", "h2", "h3", "h4", "h5", "h6", "li"]

/-- `HTMLTextExtractor.handle_endtag` (lines 318–333). -/
def handle_endtag (tag : String) (st : ExtractorSt) : ExtractorSt :=
  let t := pyLower tag
  let st := if t ∈ ignoreTags then { st with skip_data := false } else st
  let st := if t = "a" then { st with current_link := none } else st
  let st := if t = "title" then { st with in_title := false } else st
  let st := if t ∈ blockTags then { st with result := st.result ++ ["\n"] } else st
  if t ∈ ["br"] then { st with result := st.result ++ ["\n"] } else st

/-- Python truthiness of `self.title` in `not self.title`. -/
def titleFalsy : Option String → Bool
  | none => true
  | some s => s == ""

/-- `HTMLTextExtractor.handle_data` (lines 335–346). -/
def handle_data (d : String) (st : ExtractorSt) : ExtractorSt :=
  if st.skip_data then st
  else
    let st :=
      if st.in_title && titleFalsy st.title then
        { st with title := some (pyStrip d) }
      else st
    let text := pyStrip d
    if text ≠ "" then { st with result := st.result ++ [text] } else st

/-- Dispatch one tokenizer event to the matching handler. -/
def extractStep (st : ExtractorSt) (e : HtmlEvent) : ExtractorSt :=
  match e with
  | .startTag tag attrs => handle_starttag tag attrs st
  | .endTag tag => handle_endtag tag st
  | .data d => handle_data d st

/-- `parser.feed(content)`: fold the handlers over the event stream. -/
def runEvents (evs : List HtmlEvent) : ExtractorSt :=
  evs.foldl extractStep ExtractorSt.init

/-- The href value an event contributes to the link list: present
exactly for an anchor start tag whose first `href` attribute has a
non-empty value. -/
def eventHref? : HtmlEvent → Option String
  | .startTag tag attrs => if pyLower tag = "a" then hrefOf attrs else none
  | _ => none

/-- The href values, in document order, of the anchor start tags that
the extractor linkifies. -/
def hrefsOf (evs : List HtmlEvent) : List String :=
  evs.filterMap eventHref?

/-- The number of anchor (`a`) start tags that carry an `href`
attribute at all (the count the round-trip claim speaks of). -/
def anchorsWithHrefAttr (evs : List HtmlEvent) : Nat :=
  evs.countP (fun e =>
    match e with
    | .startTag tag attrs =>
        pyLower tag = "a" && attrs.any (fun a => pyLower a.1 == "href")
    | _ => false)

/-- Pair each href with its 1-based sequential id, starting at `n`. -/
def numberFrom (n : Nat) : List String → List (Nat × String)
  | [] => []
  | h :: t => (n, h) :: numberFrom (n + 1) t

theorem numberFrom_map_fst (n : Nat) (hs : List String) :
    (numberFrom n hs).map Prod.fst = List.range' n hs.length := by
  induction hs generalizing n with
  | nil => rfl
  | cons h t ih => simp [numberFrom, List.range', ih]

theorem numberFrom_map_snd (n : Nat) (hs : List String) :
    (numberFrom n hs).map Prod.snd = hs := by
  induction hs generalizing n with
  | nil => rfl
  | cons h t ih => simp [numberFrom, ih]

/-- What an end tag appends to the text stream: a line break for a
block-level close, another for `br`. -/
def endTagDelta (tag : String) : List String :=
  (if pyLower tag ∈ blockTags then ["\n"] else []) ++
    (if pyLower tag ∈ ["br"] then ["\n"] else [])

theorem handle_endtag_links (tag : String) (st : ExtractorSt) :
    (handle_endtag tag st).links = st.links := by
  simp only [handle_endtag]
  split <;> split <;> split <;> split <;> split <;> rfl

theorem handle_endtag_result (tag : String) (st : ExtractorSt) :
    (handle_endtag tag st).result = st.result ++ endTagDelta tag := by
  simp only [handle_endtag, endTagDelta]
  split <;> split <;> split <;> split <;> split <;> simp_all

/-- A step on an event contributing no link leaves `links` unchanged
and only appends to `result`. -/
theorem extractStep_of_eventHref_none (st : ExtractorSt) (e : HtmlEvent)
    (h : eventHref? e = none) :
    (extractStep st e).links = st.links ∧
      ∃ d, (extractStep st e).result = st.result ++ d := by
  cases e with
  | startTag tag attrs =>
      by_cases hta : pyLower tag = "a"
      · have hna : hrefOf attrs = none := by
          simpa [eventHref?, hta] using h
        simp [extractStep, handle_starttag, hta, hna, ignoreTags]
      · by_cases hig : pyLower tag ∈ ignoreTags
        · simp [extractStep, handle_starttag, hig]
        · by_cases hb : pyLower tag = "body" <;>
            by_cases ht : pyLower tag = "title" <;>
              simp_all [extractStep, handle_starttag, ignoreTags]
  | endTag tag =>
      exact ⟨handle_endtag_links tag st,
        endTagDelta tag, handle_endtag_result tag st⟩
  | data d =>
      by_cases hs : st.skip_data
      · simp [extractStep, handle_data, hs]
      · by_cases htf : st.in_title && titleFalsy st.title <;>
          by_cases hne : pyStrip d ≠ "" <;>
            simp [extractStep, handle_data, hs, htf, hne]

/-- A step on a linkifying anchor start tag appends exactly the new
link record and its inline marker. -/
theorem extractStep_of_eventHref_some (st : ExtractorSt) (e : HtmlEvent)
    (h : String) (hh : eventHref? e = some h) :
    (extractStep st e).links = st.links ++ [(st.links.length + 1, h)] ∧
      (extractStep st e).result =
        st.result ++ [linkMarker (st.links.length + 1)] := by
  cases e with
  | startTag tag attrs =>
      by_cases hta : pyLower tag = "a"
      · have hsome : hrefOf attrs = some h := by
          simpa [eventHref?, hta] using hh
        simp [extractStep, handle_starttag, hta, hsome, ignoreTags]
      · simp [eventHref?, hta] at hh
  | endTag tag => simp [eventHref?] at hh
  | data d => simp [eventHref?] at hh

/-- Folding the handlers numbers the linkified hrefs sequentially,
continuing from the links already recorded. -/
theorem foldl_extractStep_links (evs : List HtmlEvent) (st : ExtractorSt) :
    (evs.foldl extractStep st).links =
      st.links ++ numberFrom (st.links.length + 1) (hrefsOf evs) := by
  induction evs generalizing st with
  | nil => simp [hrefsOf, numberFrom]
  | cons e rest ih =>
      rw [List.foldl_cons]
      cases hhe : eventHref? e with
      | none =>
          obtain ⟨hl, -⟩ := extractStep_of_eventHref_none st e hhe
          rw [ih, hl]
          simp [hrefsOf, List.filterMap_cons, hhe]
      | some h =>
          obtain ⟨hl, -⟩ := extractStep_of_eventHref_some st e h hhe
          rw [ih, hl]
          simp [hrefsOf, List.filterMap_cons, hhe, numberFrom,
            List.append_assoc]

/-- Folding the handlers appends to the text stream a block that
carries the markers of the newly recorded links, in order. -/
theorem foldl_extractStep_result (evs : List HtmlEvent) (st : ExtractorSt) :
    ∃ d, (evs.foldl extractStep st).result = st.result ++ d ∧
      ((numberFrom (st.links.length + 1) (hrefsOf evs)).map
          (fun p => linkMarker p.1)).Sublist d := by
  induction evs generalizing st with
  | nil => exact ⟨[], by simp, by simp [hrefsOf, numberFrom]⟩
  | cons e rest ih =>
      rw [List.foldl_cons]
      cases hhe : eventHref? e with
      | none =>
          obtain ⟨hl, d0, hr⟩ := extractStep_of_eventHref_none st e hhe
          obtain ⟨d1, hd1, hsub⟩ := ih (extractStep st e)
          refine ⟨d0 ++ d1, ?_, ?_⟩
          · rw [hd1, hr, List.append_assoc]
          · have : ((numberFrom (st.links.length + 1)
                (hrefsOf (e :: rest))).map (fun p => linkMarker p.1)).Sublist d1 := by
              rw [hl] at hsub
              simpa [hrefsOf, List.filterMap_cons, hhe] using hsub
            exact this.trans (List.sublist_append_right d0 d1)
      | some h =>
          obtain ⟨hl, hr⟩ := extractStep_of_eventHref_some st e h hhe
          obtain ⟨d1, hd1, hsub⟩ := ih (extractStep st e)
          refine ⟨linkMarker (st.links.length + 1) :: d1, ?_, ?_⟩
          · rw [hd1, hr]
            simp
          · rw [hl] at hsub
            simp only [List.length_append, List.length_singleton] at hsub
            have hx : (numberFrom (st.links.length + 1)
                (hrefsOf (e :: rest))).map (fun p => linkMarker p.1) =
                linkMarker (st.links.length + 1) ::
                  (numberFrom (st.links.length + 1 + 1)
                    (hrefsOf rest)).map (fun p => linkMarker p.1) := by
              simp [hrefsOf, List.filterMap_cons, hhe, numberFrom]
            rw [hx]
            exact List.Sublist.cons₂ _ hsub

/-! ## Persistence layer: `DatabaseManager` of `src/browser_cli.py`

The durable SQLite file is modelled as a value threaded through the
operations; the manager instance carries the `incognito` flag, whether
a connection/cursor exists, and the cached `blocked_domains` list.
`socket.gethostbyname` is an environment effect and is passed in as a
resolver function (`none` models the exception caught by the source).
`INSERT OR REPLACE` on a `UNIQUE` column removes the conflicting row
and appends the fresh one; `ORDER BY visit_time DESC` is modelled as
reverse insertion order. -/
namespace BCli

/-- The durable store (`~/.browser_data.db`): visits rows
`(url, title, ip_address)`, firewall domains, bookmarks, settings. -/
structure Durable where
  visits : List (String × String × String)
  firewall : List String
  bookmarks : List (String × String)
  settings : List (String × String)
deriving DecidableEq, Repr

/-- A store with no rows (a fresh database file). -/
def Durable.empty : Durable := ⟨[], [], [], []⟩

/-- In-memory state of a `DatabaseManager` instance. -/
structure Dbm where
  incognito : Bool
  hasConn : Bool
  blocked_domains : List String
deriving DecidableEq, Repr

/-- `DatabaseManager.__init__` (lines 32–42): incognito gets no
connection and an empty cached list; otherwise connect and cache the
firewall domains. -/
def mkDbm (incognito : Bool) (d : Durable) : Dbm :=
  if incognito then ⟨true, false, []⟩ else ⟨false, true, d.firewall⟩

/-- `DatabaseManager.add_visit` (lines 103–129). -/
def add_visit (resolve : String → Option String) (m : Dbm) (d : Durable)
    (url title : String) : Durable × Bool :=
  if m.incognito || !m.hasConn then (d, false)
  else
    match pyNetlocE url with
    | none => (d, false)
    | some domain =>
        if domain = "" then (d, false)
        else
          let ip := (resolve domain).getD "Unknown"
          ({ d with visits := d.visits ++ [(url, title, ip)] }, true)

/-- `DatabaseManager.get_recent_visits` (lines 131–143). -/
def get_recent_visits (m : Dbm) (d : Durable) (limit : Nat) :
    List (String × String × String) :=
  if m.incognito || !m.hasConn then [] else d.visits.reverse.take limit

/-- `DatabaseManager.block_domain` (lines 158–176): incognito appends
to the cached list only; otherwise `INSERT OR REPLACE` and re-read the
cache. -/
def block_domain (m : Dbm) (d : Durable) (dom : String) :
    Dbm × Durable × Bool :=
  if m.incognito then
    ({ m with blocked_domains := m.blocked_domains ++ [dom] }, d, true)
  else if !m.hasConn then (m, d, false)
  else
    let d' := { d with firewall := d.firewall.filter (· != dom) ++ [dom] }
    ({ m with blocked_domains := d'.firewall }, d', true)

/-- Python `list.remove`: delete the first occurrence. -/
def removeFirst : List String → String → List String
  | [], _ => []
  | x :: xs, dom => if x = dom then xs else x :: removeFirst xs dom

/-- `DatabaseManager.unblock_domain` (lines 178–194). -/
def unblock_domain (m : Dbm) (d : Durable) (dom : String) :
    Dbm × Durable × Bool :=
  if m.incognito then
    (if m.blocked_domains.contains dom then
       { m with blocked_domains := removeFirst m.blocked_domains dom }
     else m, d, true)
  else if !m.hasConn then (m, d, false)
  else
    let d' := { d with firewall := d.firewall.filter (· != dom) }
    ({ m with blocked_domains := d'.firewall }, d', true)

/-- `DatabaseManager.save_setting` (lines 245–258). -/
def save_setting (m : Dbm) (d : Durable) (k v : String) : Durable × Bool :=
  if m.incognito || !m.hasConn then (d, false)
  else
    ({ d with settings := d.settings.filter (fun p => p.1 != k) ++ [(k, v)] },
     true)

/-- `DatabaseManager.get_setting` (lines 260–270). -/
def get_setting (m : Dbm) (d : Durable) (k default : String) : String :=
  if m.incognito || !m.hasConn then default
  else
    match d.settings.find? (fun p => p.1 == k) with
    | some p => p.2
    | none => default

end BCli

/-! ## Persistence layer: `DatabaseManager` of `src/db_manager.py`

This variant has no incognito flag; visit rows also carry the
geolocation placeholder. -/
namespace DbM

/-- Rows `(url, title, ip_address, location)` plus firewall domains. -/
structure Durable where
  visits : List (String × String × String × String)
  firewall : List String
deriving DecidableEq, Repr

def Durable.empty : Durable := ⟨[], []⟩

/-- `DatabaseManager.add_visit` (`src/db_manager.py` lines 55–85):
skips (returning `False`) when the netloc is empty or the literal
`about:blank`. -/
def add_visit (resolve : String → Option String) (d : Durable)
    (url title : String) : Durable × Bool :=
  match pyNetlocE url with
  | none => (d, false)
  | some domain =>
      if domain = "" ∨ domain = "about:blank" then (d, false)
      else
        let ip := (resolve domain).getD "Unknown"
        ({ d with visits := d.visits ++ [(url, title, ip, "Unknown")] }, true)

end DbM

/-! ## Persistence layer: `DatabaseManager` of `src/ultimate_browser.py`

Same schema as `db_manager` plus incognito; its `add_visit` reports
success (`True`) both in incognito mode and on the skip path. -/
namespace Ult

/-- Instance state: incognito flag and whether a cursor exists. -/
structure Dbm where
  incognito : Bool
  hasConn : Bool
deriving DecidableEq, Repr

/-- `DatabaseManager.add_visit` (`src/ultimate_browser.py`
lines 119–150). -/
def add_visit (resolve : String → Option String) (m : Dbm) (d : DbM.Durable)
    (url title : String) : DbM.Durable × Bool :=
  if m.incognito || !m.hasConn then (d, true)
  else
    match pyNetlocE url with
    | none => (d, false)
    | some domain =>
        if domain = "" ∨ domain = "about:blank" then (d, true)
        else
          let ip := (resolve domain).getD "Unknown"
          ({ d with visits := d.visits ++ [(url, title, ip, "Unknown")] },
           true)

end Ult

/-! ## Input normalization and the console session pipeline -/

/-- One hexadecimal digit, upper case, as `urllib.parse.quote` emits. -/
def hexDigit (n : Nat) : Char :=
  if n < 10 then Char.ofNat (48 + n) else Char.ofNat (55 + n)

/-- Percent-encoding of one UTF-8 byte under `quote_plus` with the
default safe set: keep alphanumerics and `_.-~`, turn space into `+`,
percent-encode the rest. -/
def quoteByte (b : UInt8) : List Char :=
  let n := b.toNat
  if (65 ≤ n ∧ n ≤ 90) ∨ (97 ≤ n ∧ n ≤ 122) ∨ (48 ≤ n ∧ n ≤ 57) ∨
      n = 95 ∨ n = 46 ∨ n = 45 ∨ n = 126 then [Char.ofNat n]
  else if n = 32 then ['+']
  else ['%', hexDigit (n / 16), hexDigit (n % 16)]

/-- Model of `urllib.parse.quote_plus`. -/
def quotePlus (s : String) : String :=
  ⟨(s.toUTF8.toList.map quoteByte).flatten⟩

/-- The search rewrite of `ConsoleBrowser.fetch_url` (lines 378–380). -/
def googleSearchCli (u : String) : String :=
  "https://www.google.com/search?q=" ++ quotePlus u

/-- Python `url.replace(' ', '+')` for the single-character pattern. -/
def pyReplaceSpacePlus (u : String) : String :=
  ⟨u.data.map (fun c => if c == ' ' then '+' else c)⟩

/-- The search rewrite of `DarkWebBrowser.navigate_to_url` (line 202). -/
def googleSearchDark (u : String) : String :=
  "https://www.google.com/search?q=" ++ pyReplaceSpacePlus u

/-- URL normalization of `ConsoleBrowser.fetch_url`
(`src/browser_cli.py` lines 377–384): rewrite to a search query when
the input has a space AND no dot, then prepend `https://` when no
`http(s)://` scheme is present. -/
def normalizeCli (u : String) : String :=
  let u1 :=
    if pyHasChar u ' ' && !pyHasChar u '.' then googleSearchCli u else u
  if pyStartsWith u1 "http://" || pyStartsWith u1 "https://" then u1
  else "https://" ++ u1

/-- URL normalization of `DarkWebBrowser.navigate_to_url`
(`src/darkweb_browser.py` lines 200–204): for unschemed input, rewrite
to a search query when it has a space OR no dot, else prepend
`http://`. -/
def normalizeDark (u : String) : String :=
  if pyStartsWith u "http://" || pyStartsWith u "https://" then u
  else if pyHasChar u ' ' || !pyHasChar u '.' then googleSearchDark u
  else "http://" ++ u

/-- A successful network response: the post-redirect URL
(`response.geturl()`) and the body decoded with `errors='ignore'`. -/
structure FetchResp where
  finalUrl : String
  content : String
deriving DecidableEq, Repr

/-- Outcome of the fetch pipeline as the caller sees it: the firewall
refusal, the caught network error (both return `None, None`), or the
parsed page. -/
inductive FetchOutcome where
  | blocked
  | fetchError
  | page (parser : ExtractorSt) (content : String)
deriving DecidableEq, Repr

/-- The observable network side effect of one pipeline run. -/
inductive NetEffect where
  | request (url : String)
deriving DecidableEq, Repr

/-- The `ConsoleBrowser` state touched by `fetch_url`. -/
structure Session where
  history : List String
  current_index : Int
  incognito_mode : Bool
  dbm : BCli.Dbm
  durable : BCli.Durable
  current_title : Option String
  current_url : Option String
deriving DecidableEq, Repr

/-- `ConsoleBrowser.fetch_url` (`src/browser_cli.py` lines 375–432).
The HTTP client and the standard-library HTML tokenizer are external
and passed in (`net` returning `none` models the caught exception);
the display-only IP lookup and prints are omitted.  The firewall check
runs right after normalization, before any network traffic, history
mutation, or visit recording. -/
def fetch_url (tokenize : String → List HtmlEvent)
    (net : String → Option FetchResp) (resolve : String → Option String)
    (s : Session) (url0 : String) : Session × FetchOutcome × List NetEffect :=
  let url := normalizeCli url0
  if is_domain_blocked s.dbm.blocked_domains url then (s, .blocked, [])
  else
    match net url with
    | none => (s, .fetchError, [.request url])
    | some resp =>
        let nav := navVisit resp.finalUrl ⟨s.history, s.current_index⟩
        let parser := runEvents (tokenize resp.content)
        let title := pyOrStr parser.title (pyNetloc url)
        let durable' :=
          if !s.incognito_mode then
            (BCli.add_visit resolve s.dbm s.durable resp.finalUrl
              (pyOrStr parser.title "")).1
          else s.durable
        ({ s with
            history := nav.entries
            current_index := nav.cursor
            durable := durable'
            current_title := some title
            current_url := some resp.finalUrl },
         .page parser resp.content, [.request url])

/-! ## Claim theorems -/

theorem string_data_append (a b : String) : (a ++ b).data = a.data ++ b.data :=
  rfl

theorem pyEndsWith_empty_left (suf : String) (h : suf.data ≠ []) :
    pyEndsWith "" suf = false := by
  unfold pyEndsWith
  cases hs : suf.data with
  | nil => exact absurd hs h
  | cons c t => simp [hs]

/-- C1 counterexample: the matcher does not return `false` on every
URL with an empty authority — with the empty string itself in the
blocked list, the bare input `"foo"` (netloc `""`) matches exactly. -/
theorem is_domain_blocked_empty_authority_counterexample :
    pyNetlocE "foo" = some "" ∧ is_domain_blocked [""] "foo" = true := by
  decide

/-- C1 (amended): the matcher returns `true` iff parsing succeeds with
some netloc `n` and some blocked entry `d` satisfies `n = d` or `n`
ends with `"." ++ d`; it returns `false` whenever parsing fails; and on
an empty authority it returns `false` provided the empty string is not
itself a blocked entry. -/
theorem is_domain_blocked_characterization :
    ∀ (B : List String) (u : String),
      (is_domain_blocked B u = true ↔
        ∃ n, pyNetlocE u = some n ∧
          ∃ d ∈ B, n = d ∨ pyEndsWith n ("." ++ d) = true) ∧
      (pyNetlocE u = none → is_domain_blocked B u = false) ∧
      (pyNetlocE u = some "" → "" ∉ B → is_domain_blocked B u = false) := by
  intro B u
  refine ⟨?_, ?_, ?_⟩
  · cases hn : pyNetlocE u with
    | none => simp [is_domain_blocked, hn]
    | some n => simp [is_domain_blocked, hn, List.any_eq_true]
  · intro hn
    simp [is_domain_blocked, hn]
  · intro hn hne
    simp only [is_domain_blocked, hn]
    rw [List.any_eq_false]
    intro d hd
    have hd' : d ≠ "" := fun h => hne (h ▸ hd)
    have he : pyEndsWith "" ("." ++ d) = false := by
      apply pyEndsWith_empty_left
      rw [string_data_append]
      simp
    simp [he]
    intro h
    exact hd' h.symm

/-- C1 witness: parse failure (unbalanced bracket), empty authority
with a non-empty blocked list, and a genuine subdomain match. -/
theorem is_domain_blocked_characterization_witness :
    is_domain_blocked ["x"] "http://[a" = false ∧
    is_domain_blocked ["x"] "nodothere" = false ∧
    is_domain_blocked ["example.com"] "https://sub.example.com/p" = true := by
  refine ⟨?_, ?_, ?_⟩
  · exact (is_domain_blocked_characterization ["x"] "http://[a").2.1
      (by decide)
  · exact (is_domain_blocked_characterization ["x"] "nodothere").2.2
      (by decide) (by decide)
  · exact (is_domain_blocked_characterization ["example.com"]
      "https://sub.example.com/p").1.mpr
      ⟨"sub.example.com", by decide, "example.com", by decide,
        Or.inr (by decide)⟩

/-- C2: for every sequence of visit/back/forward operations from the
empty history, `-1 <= cursor < len(entries)` holds; and a visit
performed while the cursor is not at the last entry truncates to the
first `cursor+1` entries, appends the new one, and repoints the cursor
at the new last entry. -/
theorem history_invariant_and_truncation :
    (∀ ops : List NavOp, navInv (runNav ops)) ∧
    (∀ (s : NavState) (e : String),
        s.cursor < (s.entries.length : Int) - 1 →
          (navVisit e s).entries =
            s.entries.take (s.cursor + 1).toNat ++ [e] ∧
          (navVisit e s).cursor =
            ((navVisit e s).entries.length : Int) - 1) := by
  refine ⟨runNav_inv, ?_⟩
  intro s e h
  simp [navVisit, h]

/-- C2 witness: a concrete branching session. -/
theorem history_invariant_and_truncation_witness :
    navInv (runNav [.visit "a", .visit "b", .back, .visit "c"]) ∧
    (navVisit "c" ⟨["a", "b"], 0⟩).entries = ["a", "c"] ∧
    (navVisit "c" ⟨["a", "b"], 0⟩).cursor = 1 := by
  have h := history_invariant_and_truncation
  have h2 := h.2 ⟨["a", "b"], 0⟩ "c" (by decide)
  refine ⟨h.1 _, ?_, ?_⟩
  · rw [h2.1]; decide
  · rw [h2.2]; decide

/-- C3: back and forward only move the cursor (back needs
`cursor > 0` and decrements; forward needs `cursor < len-1` and
increments), never mutate the entries, and report a named no-op
failure when the neighbor is missing. -/
theorem back_forward_frame :
    ∀ s : NavState,
      ((navBack s).1.entries = s.entries ∧
        (navForward s).1.entries = s.entries) ∧
      (0 < s.cursor →
        (navBack s).1.cursor = s.cursor - 1 ∧
        (navBack s).2 = .moved (s.entries.getD (s.cursor - 1).toNat "")) ∧
      (¬ 0 < s.cursor → navBack s = (s, .noEntry)) ∧
      (s.cursor < (s.entries.length : Int) - 1 →
        (navForward s).1.cursor = s.cursor + 1 ∧
        (navForward s).2 = .moved (s.entries.getD (s.cursor + 1).toNat "")) ∧
      (¬ s.cursor < (s.entries.length : Int) - 1 →
        navForward s = (s, .noEntry)) := by
  intro s
  refine ⟨⟨?_, ?_⟩, ?_, ?_, ?_, ?_⟩
  · unfold navBack; split <;> rfl
  · unfold navForward; split <;> rfl
  · intro h; simp [navBack, h]
  · intro h; simp [navBack, h]
  · intro h; simp [navForward, h]
  · intro h; simp [navForward, h]

/-- C3 witness: back moves the cursor from 1 to 0 over unchanged
entries; forward at the last entry is the named no-op. -/
theorem back_forward_frame_witness :
    (navBack ⟨["a", "b"], 1⟩).1.cursor = 0 ∧
    (navBack ⟨["a", "b"], 1⟩).2 = .moved "a" ∧
    navForward ⟨["a", "b"], 1⟩ = (⟨["a", "b"], 1⟩, .noEntry) := by
  have h := back_forward_frame ⟨["a", "b"], 1⟩
  have h1 := h.2.1 (by decide)
  have h2 := h.2.2.2.2 (by decide)
  exact ⟨by rw [h1.1]; decide, by rw [h1.2]; decide, h2⟩

/-- C5 counterexample: in the console variant, incognito `add_visit`
and `save_setting` report failure (`False`), not success. -/
theorem incognito_mutators_report_failure :
    (BCli.add_visit (fun _ => none) (BCli.mkDbm true BCli.Durable.empty)
        BCli.Durable.empty "http://a.com/" "t").2 = false ∧
    (BCli.save_setting (BCli.mkDbm true BCli.Durable.empty)
        BCli.Durable.empty "dark_mode" "1").2 = false := by
  decide

/-- C5 (amended): for an incognito store, `block_domain` reports
success while `add_visit` and `save_setting` report failure; none of
the three performs any durable write, so a fresh non-incognito
instance opened afterwards sees the original visits, firewall rules
and settings, and `get_setting` still returns the caller's default
when the key was never durably saved. -/
theorem incognito_no_durable_writes :
    ∀ (d : BCli.Durable) (resolve : String → Option String)
      (dom url title k v default : String),
      let m := BCli.mkDbm true d
      let r1 := BCli.block_domain m d dom
      let r2 := BCli.add_visit resolve r1.1 r1.2.1 url title
      let r3 := BCli.save_setting r1.1 r2.1 k v
      r1.2.2 = true ∧ r2.2 = false ∧ r3.2 = false ∧ r3.1 = d ∧
      BCli.get_recent_visits (BCli.mkDbm false r3.1) r3.1 20 =
        BCli.get_recent_visits (BCli.mkDbm false d) d 20 ∧
      (BCli.mkDbm false r3.1).blocked_domains = d.firewall ∧
      BCli.get_setting (BCli.mkDbm false r3.1) r3.1 k default =
        BCli.get_setting (BCli.mkDbm false d) d k default := by
  intro d resolve dom url title k v default
  simp [BCli.mkDbm, BCli.block_domain, BCli.add_visit, BCli.save_setting]

/-- C6: a blocked domain makes the fetch pipeline return the blocked
outcome untouched: no network request is issued, no visit row is
written, and history, cursor and the rest of the session state are
exactly as before. -/
theorem blocked_fetch_is_inert :
    ∀ (tokenize : String → List HtmlEvent)
      (net : String → Option FetchResp) (resolve : String → Option String)
      (s : Session) (u : String),
      is_domain_blocked s.dbm.blocked_domains (normalizeCli u) = true →
        fetch_url tokenize net resolve s u = (s, .blocked, []) := by
  intro tokenize net resolve s u h
  simp [fetch_url, h]

/-- C6 witness: with `example.com` blocked, opening
`http://sub.example.com/x` is refused with no effect. -/
theorem blocked_fetch_is_inert_witness :
    fetch_url (fun _ => []) (fun _ => none) (fun _ => none)
      ⟨[], -1, false, ⟨false, true, ["example.com"]⟩,
        ⟨[], ["example.com"], [], []⟩, none, none⟩
      "http://sub.example.com/x" =
      (⟨[], -1, false, ⟨false, true, ["example.com"]⟩,
        ⟨[], ["example.com"], [], []⟩, none, none⟩,
       .blocked, []) :=
  blocked_fetch_is_inert (fun _ => []) (fun _ => none) (fun _ => none)
    ⟨[], -1, false, ⟨false, true, ["example.com"]⟩,
      ⟨[], ["example.com"], [], []⟩, none, none⟩
    "http://sub.example.com/x" (by decide)

/-- C9 counterexample: `db_manager.add_visit` on the skip path returns
`False`, not success. -/
theorem add_visit_skip_returns_false :
    DbM.add_visit (fun _ => none) DbM.Durable.empty "about:blank" "t" =
      (DbM.Durable.empty, false) := by
  decide

/-- C9 (amended): `add_visit` with an empty URL or the literal
`about:blank` never creates a visit row in either variant; the
`ultimate_browser` variant reports success on the skip path while the
`db_manager` variant reports failure. -/
theorem add_visit_skips_blank_urls :
    ∀ (resolve : String → Option String) (d : DbM.Durable) (m : Ult.Dbm)
      (title : String),
      DbM.add_visit resolve d "" title = (d, false) ∧
      DbM.add_visit resolve d "about:blank" title = (d, false) ∧
      Ult.add_visit resolve m d "" title = (d, true) ∧
      Ult.add_visit resolve m d "about:blank" title = (d, true) := by
  intro resolve d m title
  have h1 : pyNetlocE "" = some "" := by decide
  have h2 : pyNetlocE "about:blank" = some "" := by decide
  refine ⟨?_, ?_, ?_, ?_⟩ <;>
    simp [DbM.add_visit, Ult.add_visit, h1, h2]

/-- C10: in incognito mode blocking appends without deduplication and
unblocking removes one occurrence, so block-block-unblock leaves the
domain blocked (and a URL on it still matches), unlike the durable
path whose `INSERT OR REPLACE` on the UNIQUE domain column keeps one
row per domain. -/
theorem incognito_block_not_unique :
    ∀ (dom : String) (d : BCli.Durable),
      let m0 := BCli.mkDbm true d
      let r1 := BCli.block_domain m0 d dom
      let r2 := BCli.block_domain r1.1 r1.2.1 dom
      let r3 := BCli.unblock_domain r2.1 r2.2.1 dom
      r2.1.blocked_domains.count dom = 2 ∧
      r3.1.blocked_domains = [dom] ∧
      (∀ u, pyNetlocE u = some dom →
        is_domain_blocked r3.1.blocked_domains u = true) ∧
      (∀ d' : BCli.Durable,
        let n1 := BCli.block_domain (BCli.mkDbm false d') d' dom
        let n2 := BCli.block_domain n1.1 n1.2.1 dom
        n2.2.1.firewall.count dom = 1 ∧
        n2.1.blocked_domains.count dom = 1) := by
  intro dom d
  refine ⟨?_, ?_, ?_, ?_⟩
  · simp [BCli.mkDbm, BCli.block_domain, List.count_cons]
  · simp [BCli.mkDbm, BCli.block_domain, BCli.unblock_domain,
      BCli.removeFirst]
  · intro u hu
    simp [BCli.mkDbm, BCli.block_domain, BCli.unblock_domain,
      BCli.removeFirst, is_domain_blocked, hu]
  · intro d'
    have hcf : ∀ fw : List String, (fw.filter (· != dom)).count dom = 0 := by
      intro fw
      simp [List.count_eq_zero, List.mem_filter]
    refine ⟨?_, ?_⟩ <;>
      simp [BCli.mkDbm, BCli.block_domain, List.count_append, hcf,
        List.count_cons]

/-- C10 witness: the concrete domain `example.com` survives
block-block-unblock and still blocks a URL on it. -/
theorem incognito_block_not_unique_witness :
    is_domain_blocked
      (BCli.unblock_domain
          (BCli.block_domain
            (BCli.block_domain (BCli.mkDbm true BCli.Durable.empty)
              BCli.Durable.empty "example.com").1
            (BCli.block_domain (BCli.mkDbm true BCli.Durable.empty)
              BCli.Durable.empty "example.com").2.1
            "example.com").1
          (BCli.block_domain
            (BCli.block_domain (BCli.mkDbm true BCli.Durable.empty)
              BCli.Durable.empty "example.com").1
            (BCli.block_domain (BCli.mkDbm true BCli.Durable.empty)
              BCli.Durable.empty "example.com").2.1
            "example.com").2.1
          "example.com").1.blocked_domains
      "http://example.com/" = true :=
  (incognito_block_not_unique "example.com" BCli.Durable.empty).2.2.1
    "http://example.com/" (by decide)

theorem pyStartsWith_append_left (s t pre : String)
    (h : pre.data.length ≤ s.data.length) :
    pyStartsWith (s ++ t) pre = pyStartsWith s pre := by
  unfold pyStartsWith
  rw [string_data_append, List.take_append_eq_append_take,
    Nat.sub_eq_zero_of_le h, List.take_zero, List.append_nil]

/-- C7 counterexample: the console variant prefixes `https://`, not
`http://` — the bare input `openai.com` normalizes to
`https://openai.com` there (the darkweb variant does yield
`http://openai.com`). -/
theorem normalize_scheme_counterexample :
    normalizeCli "openai.com" = "https://openai.com" ∧
    normalizeDark "openai.com" = "http://openai.com" := by
  decide

/-- C7 (amended): the console normalizer rewrites to a search query
exactly when the input has a space AND lacks a dot and otherwise
prefixes `https://` to unschemed input; the darkweb normalizer leaves
schemed input alone, rewrites unschemed input with a space OR no dot
to a search query, and otherwise prefixes `http://`. -/
theorem normalize_characterization :
    ∀ u : String,
      (¬ (pyStartsWith u "http://" = true ∨ pyStartsWith u "https://" = true) →
        ¬ (pyHasChar u ' ' = true ∧ pyHasChar u '.' = false) →
          normalizeCli u = "https://" ++ u) ∧
      (pyHasChar u ' ' = true ∧ pyHasChar u '.' = false →
        normalizeCli u = googleSearchCli u) ∧
      (pyStartsWith u "http://" = true ∨ pyStartsWith u "https://" = true →
        normalizeDark u = u) ∧
      (¬ (pyStartsWith u "http://" = true ∨ pyStartsWith u "https://" = true) →
        pyHasChar u ' ' = true ∨ pyHasChar u '.' = false →
          normalizeDark u = googleSearchDark u) ∧
      (¬ (pyStartsWith u "http://" = true ∨ pyStartsWith u "https://" = true) →
        ¬ (pyHasChar u ' ' = true ∨ pyHasChar u '.' = false) →
          normalizeDark u = "http://" ++ u) := by
  intro u
  have hsw : ∀ v : String, pyStartsWith ("https://www.google.com/search?q=" ++ v)
      "https://" = true := by
    intro v
    rw [show ("https://www.google.com/search?q=" : String) ++ v =
        ("https://www.google.com/search?q=" : String) ++ v from rfl,
      pyStartsWith_append_left _ _ _ (by decide)]
    decide
  refine ⟨?_, ?_, ?_, ?_, ?_⟩
  · intro h1 h2
    simp only [normalizeCli]
    rcases Bool.eq_false_or_eq_true (pyHasChar u ' ') with hs | hs <;>
      rcases Bool.eq_false_or_eq_true (pyHasChar u '.') with hd | hd <;>
        simp_all [not_or]
  · intro h2
    simp only [normalizeCli, h2.1, h2.2]
    simp [googleSearchCli, hsw (quotePlus u)]
  · intro h1
    rcases h1 with h | h <;> simp [normalizeDark, h]
  · intro h1 h2
    simp only [not_or] at h1
    rcases h2 with h | h <;>
      simp_all [normalizeDark, Bool.not_eq_true]
  · intro h1 h2
    simp only [not_or] at h1 h2
    simp [normalizeDark, h1.1, h1.2, h2.1, h2.2, Bool.not_eq_true]

/-- C7 witness: a plain host gets `https://` in the console variant;
free text becomes a search query in the darkweb variant. -/
theorem normalize_characterization_witness :
    normalizeCli "lean-lang.org" = "https://lean-lang.org" ∧
    normalizeDark "hello world" = googleSearchDark "hello world" := by
  constructor
  · exact (normalize_characterization "lean-lang.org").1 (by decide) (by decide)
  · exact (normalize_characterization "hello world").2.2.2.1 (by decide)
      (by decide)

/-- C4 counterexample: of two anchors carrying `href` attributes, the
one with an empty value is not linkified (so only one record, not
two), and the record's target is the raw relative href `/c`, which is
not an absolute URL. -/
theorem extractor_links_counterexample :
    (runEvents [.startTag "a" [("href", some "")],
        .startTag "a" [("href", some "/c")]]).links = [(1, "/c")] ∧
    anchorsWithHrefAttr [.startTag "a" [("href", some "")],
        .startTag "a" [("href", some "/c")]] = 2 ∧
    urlHasScheme "/c" = false := by
  decide

/-- C4 (amended): for every tokenized document, the anchors whose
(first) `href` attribute has a non-empty value yield exactly the link
records, numbered contiguously `1..N` in document order; each record's
target is the raw href string exactly as written (not resolved to
absolute form); and the markers of those ids appear in the text stream
in the same order. -/
theorem extractor_link_numbering :
    ∀ evs : List HtmlEvent,
      (runEvents evs).links = numberFrom 1 (hrefsOf evs) ∧
      (runEvents evs).links.map Prod.fst =
        List.range' 1 (hrefsOf evs).length ∧
      (runEvents evs).links.map Prod.snd = hrefsOf evs ∧
      ((runEvents evs).links.map (fun p => linkMarker p.1)).Sublist
        (runEvents evs).result := by
  intro evs
  have hl := foldl_extractStep_links evs ExtractorSt.init
  obtain ⟨d, hd, hsub⟩ := foldl_extractStep_result evs ExtractorSt.init
  have hinit_links : (ExtractorSt.init).links = [] := rfl
  have hinit_result : (ExtractorSt.init).result = [] := rfl
  rw [hinit_links] at hl
  rw [hinit_result] at hd
  simp only [List.nil_append, List.length_nil] at hl hd
  have hl1 : (runEvents evs).links = numberFrom 1 (hrefsOf evs) := hl
  refine ⟨hl1, ?_, ?_, ?_⟩
  · rw [hl1, numberFrom_map_fst]
  · rw [hl1, numberFrom_map_snd]
  · show ((runEvents evs).links.map (fun p => linkMarker p.1)).Sublist
      (runEvents evs).result
    rw [hl1]
    show ((numberFrom 1 (hrefsOf evs)).map (fun p => linkMarker p.1)).Sublist
      (runEvents evs).result
    rw [show (runEvents evs).result = d from hd]
    exact hsub

theorem handle_endtag_title (tag : String) (st : ExtractorSt) :
    (handle_endtag tag st).title = st.title := by
  simp only [handle_endtag]
  split <;> split <;> split <;> split <;> split <;> rfl

theorem handle_data_title_set (d : String) (st : ExtractorSt)
    (h1 : st.skip_data = false) (h2 : st.in_title = true)
    (h3 : titleFalsy st.title = true) :
    (handle_data d st).title = some (pyStrip d) := by
  simp only [handle_data, h1, h2, h3]
  simp
  split <;> rfl

/-- C8 counterexample: a `<title>` element inside `<head>` — the
standard document shape — yields no title at all, because `head` is in
the extractor's ignored tags and `skip_data` suppresses the title
data; the claim requires the title `"Hi"`. -/
theorem title_in_head_counterexample :
    (runEvents [.startTag "head" [], .startTag "title" [], .data "Hi",
        .endTag "title", .endTag "head"]).title = none ∧
    pyStrip "Hi" = "Hi" := by
  decide

/-- C8 (amended): a `<title>` element outside the ignored subtrees
(`script`/`style`/`meta`/`head`/`svg`/`path`) yields as title its data
chunk, whitespace-trimmed (entity unescaping is done by the tokenizer
before the data reaches the handler); a title inside `<head>` is not
captured, leaving the title absent; and the caller's
`parser.title or urlparse(url).netloc` fallback uses the page's host
name whenever the title is absent or empty, and the title itself
otherwise. -/
theorem title_extraction :
    (∀ t : String,
      (runEvents [.startTag "title" [], .data t, .endTag "title"]).title =
        some (pyStrip t)) ∧
    (∀ t : String,
      (runEvents [.startTag "head" [], .startTag "title" [], .data t,
          .endTag "title", .endTag "head"]).title = none) ∧
    (∀ url : String, pyOrStr none (pyNetloc url) = pyNetloc url) ∧
    (∀ url : String, pyOrStr (some "") (pyNetloc url) = pyNetloc url) ∧
    (∀ (s url : String), s ≠ "" → pyOrStr (some s) (pyNetloc url) = s) := by
  refine ⟨?_, ?_, ?_, ?_, ?_⟩
  · intro t
    show (handle_endtag "title"
        (handle_data t (handle_starttag "title" [] ExtractorSt.init))).title =
      some (pyStrip t)
    rw [handle_endtag_title]
    exact handle_data_title_set t _ (by decide) (by decide) (by decide)
  · intro t
    show (handle_endtag "head" (handle_endtag "title"
        (handle_data t (handle_starttag "title" []
          (handle_starttag "head" [] ExtractorSt.init))))).title = none
    rw [handle_endtag_title, handle_endtag_title]
    have hst : handle_starttag "title" []
        (handle_starttag "head" [] ExtractorSt.init) =
        ⟨[], [], none, true, true, none, false⟩ := by decide
    rw [hst]
    simp [handle_data]
  · intro url; rfl
  · intro url; rfl
  · intro s url h
    simp [pyOrStr, h]

/-- C8 witness: a concrete padded title is trimmed; a non-empty title
beats the host-name fallback. -/
theorem title_extraction_witness :
    (runEvents [.startTag "title" [], .data " Hi there ",
        .endTag "title"]).title = some "Hi there" ∧
    pyOrStr (some "T") (pyNetloc "http://h.com/") = "T" := by
  constructor
  · rw [title_extraction.1 " Hi there "]
    decide
  · exact title_extraction.2.2.2.2 "T" "http://h.com/" (by decide)

end Browser
